import Mathlib

/-
Verification of the sqlhandler repository's reflection/caching layer and
assorted helpers: a shallow embedding of the relevant Python code
(sqlhandler/database/name.py, database.py, schema.py, meta.py,
sqlhandler/sql.py, sqlhandler/custom/model.py) as Lean definitions, and
theorems about those definitions.

Python object identity matters here (name.py defines value-based __eq__
next to identity-based __hash__), so every embedded Python object that the
claims compare by identity carries an explicit id (pid), and construction
threads an allocator that hands out fresh ids, mirroring CPython where two
simultaneously live objects never share an id.
-/

namespace SqlHandler

/-! ## name.py -/

/-- Embedding of SchemaName (name.py). Fields mirror __init__:
name is the given name, or the default when the given name is None
(and None when the default is also None); default is kept as given;
isDefault is the Python expression `name is None or name == default`
evaluated on the constructor arguments. pid is the CPython object id. -/
structure SchemaName where
  pid : Nat
  name : Option String
  default : Option String
  isDefault : Bool
deriving DecidableEq, Repr

/-- Python `name is None or name == default` on the constructor arguments
(comparing a str with None yields False). -/
def isDefaultOf (name default : Option String) : Bool :=
  match name with
  | none => true
  | some n => some n == default

/-- SchemaName.__init__ (name.py lines 34-36). -/
def mkSchemaName (pid : Nat) (name default : Option String) : SchemaName :=
  { pid := pid
    name := match name with
            | some n => some n
            | none => default
    default := default
    isDefault := isDefaultOf name default }

/-- SchemaName.__eq__: `self.name == other.name`. -/
def SchemaName.pyEq (a b : SchemaName) : Bool :=
  a.name == b.name

/-- SchemaName.__hash__: `id(self)`. -/
def SchemaName.pyHash (a : SchemaName) : Nat :=
  a.pid

/-- Embedding of ObjectName (name.py). name is the qualified name computed
in __init__: the stem alone when the schema name is None, otherwise
`schema.name + "." + stem`. pid is the CPython object id. -/
structure ObjectName where
  pid : Nat
  stem : String
  schema : SchemaName
  name : String
deriving DecidableEq, Repr

/-- ObjectName.__init__ (name.py lines 9-10). -/
def mkObjectName (pid : Nat) (stem : String) (schema : SchemaName) : ObjectName :=
  { pid := pid
    stem := stem
    schema := schema
    name := match schema.name with
            | none => stem
            | some s => s ++ "." ++ stem }

/-- ObjectName.__eq__: `self.name == other.name`. -/
def ObjectName.pyEq (a b : ObjectName) : Bool :=
  a.name == b.name

/-- ObjectName.__hash__: `id(self)`. -/
def ObjectName.pyHash (a : ObjectName) : Nat :=
  a.pid

/-- CPython set membership `x in s` for a set of ObjectName values: a probe
matches an entry only when the stored hash equals hash(x), and then entry
identity or __eq__ decides. With name.py's identity-based __hash__ the
stored hash is the entry's id. -/
def objectNameSetContains (s : List ObjectName) (x : ObjectName) : Bool :=
  s.any fun e => e.pyHash == x.pyHash && (e.pid == x.pid || e.pyEq x)

/-- CPython set membership for a set of SchemaName values, as above. -/
def schemaNameSetContains (s : List SchemaName) (x : SchemaName) : Bool :=
  s.any fun e => e.pyHash == x.pyHash && (e.pid == x.pid || e.pyEq x)

/-! ## Object allocation

Each call that constructs a SchemaName or ObjectName in the Python source
creates a new object with a fresh id. The allocator makes that explicit. -/

/-- Supply of fresh CPython object ids. -/
structure Alloc where
  next : Nat
deriving DecidableEq, Repr

/-- Construct a SchemaName with a fresh id. -/
def allocSchemaName (a : Alloc) (name default : Option String) : SchemaName × Alloc :=
  (mkSchemaName a.next name default, { next := a.next + 1 })

/-- Construct an ObjectName with a fresh id. -/
def allocObjectName (a : Alloc) (stem : String) (schema : SchemaName) : ObjectName × Alloc :=
  (mkObjectName a.next stem schema, { next := a.next + 1 })

/-- Construct one ObjectName per stem, each with a fresh id: the set
comprehensions in Database.table_names / Database.view_names. -/
def allocObjectNames (a : Alloc) (schema : SchemaName) : List String → List ObjectName × Alloc
  | [] => ([], a)
  | stem :: rest =>
      let (n, a1) := allocObjectName a stem schema
      let (ns, a2) := allocObjectNames a1 schema rest
      (n :: ns, a2)

/-! ## database.py: environment, events, name listing -/

/-- Observable calls the embedded database layer makes: inspector name
listings, metadata cache reads, and reflection of object definitions
(Database._reflect_object and the declarative/automap load of
Database._autoload_schema). -/
inductive Ev where
  | listSchemaNames
  | listTableNames (schema : Option String)
  | listViewNames (schema : Option String)
  | cacheRead (key : String)
  | reflectObject (stem : String) (schema : Option String)
  | autoloadSchema (schema : Option String)
deriving DecidableEq, Repr

/-- Whether an event reflects an object definition (the work the spec calls
reflection, as opposed to mere name listing). -/
def Ev.isReflection : Ev → Bool
  | .reflectObject _ _ => true
  | .autoloadSchema _ => true
  | _ => false

/-- One table of sqlalchemy MetaData.tables: its unqualified name and its
schema, the two attributes Database._name_from_table reads. -/
structure MetaTable where
  name : String
  schema : Option String
deriving DecidableEq, Repr

/-- The live database as the sqlalchemy inspector reports it: schema names,
the default schema name (Database.default_schema), table and view name
listings per schema, and the primary-key test _reflect_object makes. -/
structure DbEnv where
  schemaNames : List String
  defaultSchemaName : String
  tableStems : Option String → List String
  viewStems : Option String → List String
  hasPkConstraint : Option String → String → Bool

/-- Database.schema_names: one freshly constructed SchemaName per inspector
schema name, each with default = Database.default_schema. -/
def dbSchemaNames (env : DbEnv) (a : Alloc) : List SchemaName × Alloc :=
  go env.schemaNames a
where
  go : List String → Alloc → List SchemaName × Alloc
    | [], a => ([], a)
    | n :: rest, a =>
        let (s, a1) := allocSchemaName a (some n) (some env.defaultSchemaName)
        let (ss, a2) := go rest a1
        (s :: ss, a2)

/-- Database.table_names: freshly constructed ObjectName per listed table. -/
def dbTableNames (env : DbEnv) (schema : SchemaName) (a : Alloc) :
    (List ObjectName × Alloc) × List Ev :=
  (allocObjectNames a schema (env.tableStems schema.name), [Ev.listTableNames schema.name])

/-- Database.view_names: freshly constructed ObjectName per listed view. -/
def dbViewNames (env : DbEnv) (schema : SchemaName) (a : Alloc) :
    (List ObjectName × Alloc) × List Ev :=
  (allocObjectNames a schema (env.viewStems schema.name), [Ev.listViewNames schema.name])

/-- The db_names accumulation loop of _remove_stale_metadata_objects:
per schema, the union of its table names with its view names. All the set
elements have pairwise distinct ids, so a Python set union keeps them all
and is embedded as list concatenation. -/
def gatherDbNames (env : DbEnv) (a : Alloc) : List SchemaName → (List ObjectName × Alloc) × List Ev
  | [] => (([], a), [])
  | s :: rest =>
      let ((ts, a1), ev1) := dbTableNames env s a
      let ((vs, a2), ev2) := dbViewNames env s a1
      let ((ns, a3), ev3) := gatherDbNames env a2 rest
      ((ts ++ vs ++ ns, a3), ev1 ++ ev2 ++ ev3)

/-- Database._name_from_table: a fresh ObjectName over a fresh SchemaName
built from the table's schema and the default schema. -/
def nameFromTable (env : DbEnv) (a : Alloc) (t : MetaTable) : ObjectName × Alloc :=
  let (sn, a1) := allocSchemaName a t.schema (some env.defaultSchemaName)
  allocObjectName a1 t.name sn

/-- The removal loop of _remove_stale_metadata_objects over a snapshot of
meta.tables: an item whose freshly constructed name is not in db_names is
removed (via _remove_object_if_exists, whose metadata part deletes it).
The Python loop iterates the live dict while removing from it; the
embedding iterates the item snapshot, which is what the membership test is
applied to either way. -/
def removeStaleLoop (env : DbEnv) (dbNames : List ObjectName) :
    List MetaTable → Alloc → List MetaTable × Alloc
  | [], a => ([], a)
  | t :: rest, a =>
      let (nm, a1) := nameFromTable env a t
      let (kept, a2) := removeStaleLoop env dbNames rest a1
      if objectNameSetContains dbNames nm then (t :: kept, a2) else (kept, a2)

/-- Database._remove_stale_metadata_objects (database.py lines 157-164):
collect the live qualified-name listing, then drop every metadata table
whose freshly built ObjectName fails the set membership test. -/
def removeStaleMetadataObjects (env : DbEnv) (meta : List MetaTable) (a : Alloc) :
    (List MetaTable × Alloc) × List Ev :=
  let (schemas, a1) := dbSchemaNames env a
  let ((dbNames, a2), evs) := gatherDbNames env a1 schemas
  (removeStaleLoop env dbNames meta a2, Ev.listSchemaNames :: evs)

/-! ## Python attribute lookup on Database instances

schema.py calls `self._database.reflect(...)` and iterates
`self._database.schemas`; whether those attribute lookups succeed is
decided by what the Database class and its __init__ actually define.
Database (database/database.py) is a plain class with no __getattr__, so
getattr resolves through the instance attributes __init__ assigns and the
declarations of the class body, listed here verbatim from the source. -/

/-- Exceptions the embedded code can raise. -/
inductive PyExc where
  | attributeError (msg : String)
deriving DecidableEq, Repr

/-- The attribute names a fully constructed Database instance resolves:
instance attributes assigned in __init__ and the names declared in the
class body of Database (database/database.py). Dunder methods aside,
nothing else resolves. -/
def databaseAttrNames : List String :=
  ["sql", "name", "cache", "meta", "model", "auto_model", "tables", "views",
   "_null_registry", "default_schema", "schema_names", "table_names",
   "view_names", "create_table", "drop_table", "refresh_table",
   "exists_table", "clear", "_get_metadata", "_cache_metadata",
   "_sync_with_db", "_prepare_accessors", "_prepare_schema_accessors",
   "_prepare_object_accessors", "_reflect_database", "_reflect_schema",
   "_reflect_object_with_autoload", "_reflect_object",
   "_remove_stale_metadata_objects", "_autoload_schema",
   "_remove_object_if_exists", "_remove_object_from_metadata",
   "_remove_object_from_accessors", "_reset_accessors", "_name_from_table",
   "_normalize_table", "_table_name", "_scalar_name", "_collection_name"]

/-- Python getattr on a Database instance, restricted to whether the name
resolves at all. -/
def databaseHasAttr (attr : String) : Bool :=
  databaseAttrNames.contains attr

/-! ## schema.py: Schema and Schemas namespaces -/

/-- Python attr.startswith("_"): whether the first character is an
underscore. -/
def startsWithUnderscore (attr : String) : Bool :=
  match attr.data with
  | [] => false
  | c :: _ => c == Char.ofNat 95

/-- A Schema namespace (schema.py class Schema): its _name, the owning
database's name, and the members already present on the namespace (what
`super().__getattribute__` finds). The member payload is the mapped model,
kept abstract as a tag string. -/
structure SchemaNS where
  name : String
  databaseName : String
  members : List (String × String)
deriving DecidableEq, Repr

/-- Schema.__getattr__ (schema.py lines 63-70). A non-underscore attribute
first evaluates `self._database.reflect`, an attribute lookup on the
Database instance; Database defines no attribute named reflect, so that
lookup raises AttributeError before the try block is reached. An
underscore attribute skips straight to the namespace lookup, whose
AttributeError is re-raised with the message naming the schema and the
database. Returns the outcome and the reflection events performed. -/
def schemaGetattr (s : SchemaNS) (attr : String) : Except PyExc String × List Ev :=
  if startsWithUnderscore attr = false then
    if databaseHasAttr "reflect" then
      -- Dead branch: databaseAttrNames contains no "reflect" entry, so the
      -- call can never be reached; there is no method body to embed.
      (Except.error (PyExc.attributeError "unreachable"), [])
    else
      (Except.error (PyExc.attributeError "'Database' object has no attribute 'reflect'"), [])
  else
    match s.members.lookup attr with
    | some m => (Except.ok m, [])
    | none =>
        (Except.error (PyExc.attributeError
          ("Schema '" ++ s.name ++ "' of Database '" ++ s.databaseName ++
           "' has no object '" ++ attr ++ "'.")), [])

/-- Schema.__call__ (schema.py lines 59-61): `self._database.reflect(self._name)`,
the same attribute lookup on the Database instance, which raises before any
reflection can happen. -/
def schemaNSCall (_s : SchemaNS) : Except PyExc SchemaNS × List Ev :=
  if databaseHasAttr "reflect" then
    (Except.error (PyExc.attributeError "unreachable"), [])
  else
    (Except.error (PyExc.attributeError "'Database' object has no attribute 'reflect'"), [])

/-- Schemas._refresh (schema.py lines 44-47), called from Schemas.__init__
and from every non-underscore Schemas.__getattr__: iterates
`self._database.schemas`, an attribute lookup that Database does not
resolve, so it raises AttributeError. -/
def schemasRefresh : Except PyExc Unit × List Ev :=
  if databaseHasAttr "schemas" then
    (Except.error (PyExc.attributeError "unreachable"), [])
  else
    (Except.error (PyExc.attributeError "'Database' object has no attribute 'schemas'"), [])

/-- A concrete one-schema live database: default schema main, one table
main.foo, no views. -/
def exampleEnv : DbEnv :=
  { schemaNames := ["main"]
    defaultSchemaName := "main"
    tableStems := fun s => if s == some "main" then ["foo"] else []
    viewStems := fun _ => []
    hasPkConstraint := fun _ _ => true }

/-! ## meta.py and database.py: metadata and its disk cache -/

/-- Embedding of Metadata (meta.py): the table collection plus the two
references Database._get_metadata rebinds after a cache read, meta.bind
(the engine, kept as its id) and meta.sql. -/
structure Metadata where
  tables : List MetaTable
  bind : Option Nat
  sqlBound : Bool
deriving DecidableEq, Repr

/-- A fresh `Metadata()` as constructed in _get_metadata: empty and unbound. -/
def emptyMetadata : Metadata :=
  { tables := [], bind := none, sqlBound := false }

/-- Modelled from the spec: the iotools Cache object is not part of this
repository. Per the spec it caches reflected metadata to disk with a
time-to-live, keyed by database identity, with a freshness window in days;
an entry is a key with the day it was stored and its value. -/
structure Cache where
  ttlDays : Nat
  entries : List (String × Nat × Metadata)
deriving DecidableEq, Repr

/-- Lookup of a stored entry by key. -/
def Cache.find (c : Cache) (key : String) : Option (Nat × Metadata) :=
  c.entries.lookup key

/-- Store a value under a key at the given day, replacing any old entry. -/
def Cache.store (c : Cache) (key : String) (now : Nat) (v : Metadata) : Cache :=
  { c with entries := (key, now, v) :: c.entries.filter fun e => e.1 ≠ key }

/-- Modelled from the spec: Cache.setdefault. An entry that exists and is
less than ttlDays old is returned as is; otherwise the given default is
stored under the key and returned. -/
def Cache.setdefault (c : Cache) (now : Nat) (key : String) (v : Metadata) :
    Metadata × Cache :=
  match c.find key with
  | some (t, stored) =>
      if now - t < c.ttlDays then (stored, c) else (v, c.store key now v)
  | none => (v, c.store key now v)

/-- The cache Database.__init__ builds: `Cache(file=..., days=5)`. -/
def databaseCache (entries : List (String × Nat × Metadata)) : Cache :=
  { ttlDays := 5, entries := entries }

/-- The state of the owning Sql object that database.py reads.
cacheMetadata is Sql.CACHE_METADATA — modelled from the spec, since the
base Sql class in src defines no such attribute (database.py reads it and
the DjangoSql subclass overrides it); the spec says metadata caching is the
behaviour it toggles. urlDatabase is `sql.engine.url.database` and engineId
stands for `sql.engine`. -/
structure SqlEnv where
  cacheMetadata : Bool
  urlDatabase : String
  engineId : Nat
deriving DecidableEq, Repr

/-- The rebinding `meta.bind, meta.sql = self.sql.engine, self.sql` that
_get_metadata performs after the cache read. -/
def rebindMeta (sql : SqlEnv) (m : Metadata) : Metadata :=
  { m with bind := some sql.engineId, sqlBound := true }

/-- Database._get_metadata (database.py lines 94-105). With caching off, a
fresh Metadata is returned at once. Otherwise cache.setdefault is tried
with the database name from the engine URL as key and a fresh Metadata as
default; if that read raises (readFails), the fresh Metadata is used and
the cache is left alone. Either way the result is rebound to the current
engine and Sql. Returns the metadata with the cache state and the events. -/
def getMetadata (sql : SqlEnv) (c : Cache) (now : Nat) (readFails : Bool) :
    (Metadata × Cache) × List Ev :=
  if sql.cacheMetadata = false then
    ((emptyMetadata, c), [])
  else if readFails then
    ((rebindMeta sql emptyMetadata, c), [Ev.cacheRead sql.urlDatabase])
  else
    let (m, c1) := c.setdefault now sql.urlDatabase emptyMetadata
    ((rebindMeta sql m, c1), [Ev.cacheRead sql.urlDatabase])

/-! ## database.py: construction and explicit reflection -/

/-- Database.__init__ (database.py lines 29-38): builds the cache, calls
_get_metadata, builds the two declarative bases (no reflection), then
constructs the tables and views accessors as `Schemas(database=self)`.
Schemas.__init__ (schema.py lines 21-23) immediately calls _refresh, which
iterates `self._database.schemas`; Database resolves no such attribute, so
construction raises AttributeError there and _sync_with_db is never
reached. Returns the outcome and the trace of events performed. -/
def databaseInit (sql : SqlEnv) (entries : List (String × Nat × Metadata))
    (now : Nat) (readFails : Bool) : Except PyExc (Metadata × Cache) × List Ev :=
  let ((meta, c1), ev1) := getMetadata sql (databaseCache entries) now readFails
  match schemasRefresh with
  | (Except.error e, ev2) => (Except.error e, ev1 ++ ev2)
  | (Except.ok _, ev2) =>
      -- Dead branch: Database resolves no "schemas" attribute.
      (Except.ok (meta, c1), ev1 ++ ev2)

/-- Database._reflect_object (database.py lines 149-156): inspects the
primary-key constraint and constructs a Table against the metadata with
autoload, which registers the table under its key when not yet present.
Column detail is outside the claims' scope; the key registration and the
event are kept. -/
def reflectObject (_env : DbEnv) (meta : List MetaTable) (nm : ObjectName) :
    List MetaTable × List Ev :=
  let t : MetaTable := { name := nm.stem, schema := nm.schema.name }
  let meta1 := if meta.contains t then meta else meta ++ [t]
  (meta1, [Ev.reflectObject nm.stem nm.schema.name])

/-- Database._autoload_schema (database.py lines 166-177): the automap
pass over a schema. The declarative/automap machinery belongs to the
underlying toolkit; what matters to the claims is that it loads object
definitions, recorded as an event. -/
def autoloadSchema (schema : SchemaName) : List Ev :=
  [Ev.autoloadSchema schema.name]

/-- Database._reflect_schema (database.py lines 138-142): reflect every
listed table and view of the schema, then autoload the schema. -/
def reflectSchema (env : DbEnv) (meta : List MetaTable) (schema : SchemaName)
    (a : Alloc) : (List MetaTable × Alloc) × List Ev :=
  let ((ts, a1), ev1) := dbTableNames env schema a
  let ((vs, a2), ev2) := dbViewNames env schema a1
  let step := fun (acc : List MetaTable × List Ev) (nm : ObjectName) =>
    let (m1, e1) := reflectObject env acc.1 nm
    (m1, acc.2 ++ e1)
  let (meta1, ev3) := (ts ++ vs).foldl step (meta, [])
  ((meta1, a2), ev1 ++ ev2 ++ ev3 ++ autoloadSchema schema)

/-- Database.__call__ (database.py lines 43-45), which runs
_reflect_database (lines 134-136): reflect every schema. -/
def databaseCall (env : DbEnv) (meta : List MetaTable) (a : Alloc) :
    (List MetaTable × Alloc) × List Ev :=
  let (schemas, a1) := dbSchemaNames env a
  let step := fun (acc : (List MetaTable × Alloc) × List Ev) (s : SchemaName) =>
    let ((m1, a2), e1) := reflectSchema env acc.1.1 s acc.1.2
    ((m1, a2), acc.2 ++ e1)
  let init := ((meta, a1), [Ev.listSchemaNames])
  schemas.foldl step init

/-! ## sql.py: column type inference for frame_to_table -/

/-- The sqlalchemy column types Sql._sqlalchemy_dtype_from_series can pick. -/
inductive SqlDtype where
  | tinyint
  | smallInteger
  | integer
  | bigInteger
  | string (capacity : Nat)
deriving DecidableEq, Repr

/-- Whether an integer is representable as a 16-bit signed integer, the
storage of SQL SMALLINT (the type behind sqlalchemy SmallInteger). -/
def fitsInt16 (n : Int) : Bool :=
  -(2 ^ 15) ≤ n && n ≤ 2 ^ 15 - 1

/-- Whether an integer is representable as a 32-bit signed integer, the
storage of SQL INT (the type behind sqlalchemy Integer). -/
def fitsInt32 (n : Int) : Bool :=
  -(2 ^ 31) ≤ n && n ≤ 2 ^ 31 - 1

/-- Minimum of a nonempty integer list, head-seeded. -/
def intListMin : Int → List Int → Int
  | acc, [] => acc
  | acc, x :: rest => intListMin (min acc x) rest

/-- Maximum of a nonempty integer list, head-seeded. -/
def intListMax : Int → List Int → Int
  | acc, [] => acc
  | acc, x :: rest => intListMax (max acc x) rest

/-- Sql._sqlalchemy_dtype_from_series (sql.py lines 222-237), int64/Int64
branch. A series is a list of optional machine integers (None for a null of
a nullable Int64 series); series.min() and series.max() skip nulls. An
entirely null (or empty) series satisfies isnull().all() and gets Integer;
otherwise the branch thresholds are exactly the source's:
0 <= min and max <= 255 for TINYINT, -2^15 <= min and max <= 2^15 for
SmallInteger, -2^31 <= min and max <= 2^31 for Integer, else BigInteger. -/
def sqlalchemyDtypeFromIntSeries (values : List (Option Int)) : SqlDtype :=
  match values.filterMap id with
  | [] => SqlDtype.integer
  | x :: rest =>
      let minimum := intListMin x rest
      let maximum := intListMax x rest
      if 0 ≤ minimum && maximum ≤ 255 then SqlDtype.tinyint
      else if -(2 ^ 15) ≤ minimum && maximum ≤ 2 ^ 15 then SqlDtype.smallInteger
      else if -(2 ^ 31) ≤ minimum && maximum ≤ 2 ^ 31 then SqlDtype.integer
      else SqlDtype.bigInteger

/-- The length of one value of an object-dtype series after
`series.fillna("").astype(str)`: a null becomes the empty string, any
other value its string rendering (the embedding takes the values already
rendered). -/
def renderedLen (v : Option String) : Nat :=
  (v.getD "").length

/-- Maximum rendered length of the series,
`series.fillna("").astype(str).str.len().max()`. On an empty series pandas
max() is NaN and the int() conversion raises, hence none. -/
def strSeriesMaxLen (values : List (Option String)) : Option Nat :=
  match values with
  | [] => none
  | _ => some ((values.map renderedLen).foldr max 0)

/-- Sql._sqlalchemy_dtype_from_series (sql.py lines 238-239), object-dtype
branch: `String(int((series.fillna("").astype(str).str.len().max()//50 + 1)*50))`. -/
def sqlalchemyDtypeFromStrSeries (values : List (Option String)) : Option SqlDtype :=
  (strSeriesMaxLen values).map fun l => SqlDtype.string ((l / 50 + 1) * 50)

/-! ## sql.py: the Transaction context manager

The sqlalchemy session is modelled as committed state plus the pending
work of the current transaction: rollback discards the pending work,
commit folds it into the committed state. -/

/-- A session: committed state of type σ and pending operations of type ω. -/
structure Session (σ ω : Type) where
  committed : σ
  pending : List ω
deriving DecidableEq, Repr

/-- Session rollback: pending work is discarded. -/
def Session.rollback {σ ω : Type} (s : Session σ ω) : Session σ ω :=
  { s with pending := [] }

/-- Session commit: pending work is applied to the committed state. -/
def Session.commit {σ ω : Type} (applyOp : σ → ω → σ) (s : Session σ ω) : Session σ ω :=
  { committed := s.pending.foldl applyOp s.committed, pending := [] }

/-- Transaction.__enter__ (sql.py lines 261-264): `self.sql.session.rollback()`. -/
def transactionEnter {σ ω : Type} (s : Session σ ω) : Session σ ω :=
  s.rollback

/-- Transaction.__exit__ (sql.py lines 266-268): commit when ex_type is
None, rollback otherwise. -/
def transactionExit {σ ω : Type} (applyOp : σ → ω → σ) (excRaised : Bool)
    (s : Session σ ω) : Session σ ω :=
  if excRaised then s.rollback else s.commit applyOp

/-- One run of `with sql:`: enter, then a body that queues bodyOps on the
session and raises iff bodyRaises, then exit with the body's outcome. -/
def runWithTransaction {σ ω : Type} (applyOp : σ → ω → σ) (s : Session σ ω)
    (bodyOps : List ω) (bodyRaises : Bool) : Session σ ω :=
  let s1 := transactionEnter s
  let s2 := { s1 with pending := s1.pending ++ bodyOps }
  transactionExit applyOp bodyRaises s2

/-! ## custom/model.py: AutoModel -/

/-- Column types appearing on AutoModel: sqlalchemy Integer, String(n),
the SubtypesDateTime decorator over DateTime, and Boolean. -/
inductive ColType where
  | integer
  | stringType (capacity : Nat)
  | dateTime
  | boolean
deriving DecidableEq, Repr

/-- Server-side default expressions used by AutoModel: none given,
null(), func.NOW(), true(). -/
inductive SqlDefault where
  | noDefault
  | nullLiteral
  | nowFunction
  | trueLiteral
deriving DecidableEq, Repr

/-- One declarative column as AutoModel declares it. nullable follows
sqlalchemy Column semantics: explicit where the source passes nullable=...,
False for a primary-key column, True otherwise. -/
structure ColumnSpec where
  name : String
  type : ColType
  primaryKey : Bool
  nullable : Bool
  serverDefault : SqlDefault
  onupdate : SqlDefault
deriving DecidableEq, Repr

/-- The columns AutoModel (custom/model.py lines 151-169) declares, in
source order: id, name, created, modified, active. Every declarative class
inheriting from AutoModel receives them through the declarative base. -/
def autoModelColumns : List ColumnSpec :=
  [{ name := "id", type := ColType.integer, primaryKey := true,
     nullable := false, serverDefault := SqlDefault.noDefault,
     onupdate := SqlDefault.noDefault },
   { name := "name", type := ColType.stringType 50, primaryKey := false,
     nullable := true, serverDefault := SqlDefault.nullLiteral,
     onupdate := SqlDefault.noDefault },
   { name := "created", type := ColType.dateTime, primaryKey := false,
     nullable := false, serverDefault := SqlDefault.nowFunction,
     onupdate := SqlDefault.noDefault },
   { name := "modified", type := ColType.dateTime, primaryKey := false,
     nullable := false, serverDefault := SqlDefault.nowFunction,
     onupdate := SqlDefault.nowFunction },
   { name := "active", type := ColType.boolean, primaryKey := false,
     nullable := false, serverDefault := SqlDefault.trueLiteral,
     onupdate := SqlDefault.noDefault }]

/-- Column lookup by name on AutoModel. -/
def findColumn (n : String) : Option ColumnSpec :=
  autoModelColumns.find? fun c => c.name == n

/-- Modelled from the spec: snake_case conversion. The source delegates to
the external subtypes library (`Str(cls.__name__).case.snake()`); the spec
says the generated table name is the snake_case form of the class name: an
underscore is inserted before an upper-case letter that follows a
lower-case letter or a digit, and all letters are lowered. -/
def snakeCaseChars : Option Char → List Char → List Char
  | _, [] => []
  | prev, c :: rest =>
      let breakHere := c.isUpper && (match prev with
        | some p => p.isLower || p.isDigit
        | none => false)
      (if breakHere then [Char.ofNat 95, c.toLower] else [c.toLower]) ++
        snakeCaseChars (some c) rest

/-- Snake-case form of a class name. -/
def snakeCase (s : String) : String :=
  String.mk (snakeCaseChars none s.data)

/-- AutoModel.__tablename__ (custom/model.py lines 152-154). -/
def autoModelTablename (clsName : String) : String :=
  snakeCase clsName

/-! ## custom/model.py: BaseModel.update -/

/-- A key of the positional dict passed to BaseModel.update: either a plain
string, or an InstrumentedAttribute, of which update reads only .key. -/
inductive AttrKey where
  | plain (s : String)
  | instrumented (key : String)
deriving DecidableEq, Repr

/-- The string update normalizes a key to:
`name if isinstance(name, str) else name.key`. -/
def AttrKey.keyName : AttrKey → String
  | .plain s => s
  | .instrumented k => k

/-- Python dict lookup on an association list. -/
def dlookup {α : Type} : List (String × α) → String → Option α
  | [], _ => none
  | e :: rest, k => if e.1 == k then some e.2 else dlookup rest k

/-- Python dict key membership. -/
def dcontains {α : Type} : List (String × α) → String → Bool
  | [], _ => false
  | e :: rest, k => e.1 == k || dcontains rest k

/-- Python `d[k] = v`: overwrite the entry of the key in place (the first
one; a dict holds each key once), else append a new entry. -/
def dictSet {α : Type} : List (String × α) → String → α → List (String × α)
  | [], k, v => [(k, v)]
  | e :: rest, k, v =>
      if e.1 == k then (k, v) :: rest else e :: dictSet rest k v

/-- A Python dict built from pairs in order (later pairs win). -/
def dictOfPairs {α : Type} (l : List (String × α)) : List (String × α) :=
  l.foldl (fun d e => dictSet d e.1 e.2) []

/-- The keys of a dict. -/
def dkeys {α : Type} (d : List (String × α)) : List String :=
  d.map fun e => e.1

/-- Whether an association list has pairwise distinct keys, the invariant
of every Python dict. -/
def uniqueKeys {α : Type} : List (String × α) → Bool
  | [] => true
  | e :: rest => !(dcontains rest e.1) && uniqueKeys rest

/-- An ORM-mapped instance as update sees it: the keys of
`self.__mapper__.all_orm_descriptors`, and the current attribute values. -/
structure OrmInstance (α : Type) where
  descriptors : List String
  attrs : List (String × α)
deriving DecidableEq, Repr

/-- The two AttributeError cases BaseModel.update raises. -/
inductive UpdateError where
  | unknownAttributes (names : List String)
  | duplicateAttributes (names : List String)
deriving DecidableEq, Repr

/-- The dict `clean_argdeltas`: the positional dict with every key
normalized to its string form. -/
def cleanDict {α : Type} (argdeltas : Option (List (AttrKey × α))) :
    List (String × α) :=
  dictOfPairs ((argdeltas.getD []).map fun e => (e.1.keyName, e.2))

/-- The dict built from the keyword arguments. -/
def kwDict {α : Type} (kwargs : List (String × α)) : List (String × α) :=
  dictOfPairs kwargs

/-- The dict `updates`: empty, then updated with clean_argdeltas, then
updated with the keyword dict. -/
def updateDict {α : Type} (argdeltas : Option (List (AttrKey × α)))
    (kwargs : List (String × α)) : List (String × α) :=
  (kwDict kwargs).foldl (fun d e => dictSet d e.1 e.2) (cleanDict argdeltas)

/-- BaseModel.update (custom/model.py lines 109-131). The positional dict
keys are normalized to strings; updates is the empty dict updated with the
positional dict and then with the keyword dict. If any key of updates is
not a descriptor key, AttributeError is raised; else if both inputs were
given and share a key, AttributeError is raised; otherwise every pair of
updates is set on the instance in dict order and the object is returned.
The returned instance is the state at return or at raise time. -/
def modelUpdate {α : Type} (self : OrmInstance α)
    (argdeltas : Option (List (AttrKey × α))) (kwargs : List (String × α)) :
    OrmInstance α × Option UpdateError :=
  let cleanArgdeltas := cleanDict argdeltas
  let kw := kwDict kwargs
  let updates := updateDict argdeltas kwargs
  let difference := (dkeys updates).filter fun k => !(self.descriptors.contains k)
  if !difference.isEmpty then
    (self, some (UpdateError.unknownAttributes difference))
  else
    let intersection := (dkeys cleanArgdeltas).filter fun k => dcontains kw k
    if !cleanArgdeltas.isEmpty && !kw.isEmpty && !intersection.isEmpty then
      (self, some (UpdateError.duplicateAttributes intersection))
    else
      ({ self with attrs := updates.foldl (fun acc e => dictSet acc e.1 e.2) self.attrs },
       none)

/-! ## Helper lemmas -/

/-- Every element of a list of naturals is bounded by its foldr max. -/
theorem le_foldr_max (l : List Nat) : ∀ x ∈ l, x ≤ l.foldr max 0 := by
  induction l with
  | nil => intro x hx; cases hx
  | cons a t ih =>
      intro x hx
      rcases List.mem_cons.mp hx with hx | hx
      · subst hx; exact le_max_left _ _
      · exact le_trans (ih x hx) (le_max_right _ _)

/-- The allocator counter never decreases across allocObjectNames. -/
theorem allocObjectNames_next_le (a : Alloc) (sch : SchemaName) (stems : List String) :
    a.next ≤ (allocObjectNames a sch stems).2.next := by
  induction stems generalizing a with
  | nil => simp [allocObjectNames]
  | cons s rest ih =>
      simp only [allocObjectNames, allocObjectName]
      exact le_trans (Nat.le_succ _) (ih { next := a.next + 1 })

/-- Every id handed out by allocObjectNames is below the final counter. -/
theorem allocObjectNames_pid_lt (a : Alloc) (sch : SchemaName) (stems : List String) :
    ∀ n ∈ (allocObjectNames a sch stems).1, n.pid < (allocObjectNames a sch stems).2.next := by
  induction stems generalizing a with
  | nil => intro n hn; simp [allocObjectNames] at hn
  | cons s rest ih =>
      intro n hn
      simp only [allocObjectNames, allocObjectName, List.mem_cons] at hn
      rcases hn with hn | hn
      · subst hn
        simp only [allocObjectNames, mkObjectName]
        exact lt_of_lt_of_le (Nat.lt_succ_self _)
          (allocObjectNames_next_le { next := a.next + 1 } sch rest)
      · exact ih { next := a.next + 1 } n hn

/-- The allocator counter never decreases across gatherDbNames. -/
theorem gatherDbNames_next_le (env : DbEnv) (a : Alloc) (ss : List SchemaName) :
    a.next ≤ ((gatherDbNames env a ss).1).2.next := by
  induction ss generalizing a with
  | nil => simp [gatherDbNames]
  | cons s rest ih =>
      simp only [gatherDbNames, dbTableNames, dbViewNames]
      refine le_trans (allocObjectNames_next_le a s (env.tableStems s.name)) ?_
      refine le_trans (allocObjectNames_next_le _ s (env.viewStems s.name)) ?_
      exact ih _

/-- Every id of a name gathered for db_names is below the final counter. -/
theorem gatherDbNames_pid_lt (env : DbEnv) (a : Alloc) (ss : List SchemaName) :
    ∀ n ∈ ((gatherDbNames env a ss).1).1, n.pid < ((gatherDbNames env a ss).1).2.next := by
  induction ss generalizing a with
  | nil => intro n hn; simp [gatherDbNames] at hn
  | cons s rest ih =>
      intro n hn
      simp only [gatherDbNames, dbTableNames, dbViewNames, List.mem_append] at hn ⊢
      rcases hn with (hn | hn) | hn
      · have h1 := allocObjectNames_pid_lt a s (env.tableStems s.name) n hn
        refine lt_of_lt_of_le h1 ?_
        refine le_trans (allocObjectNames_next_le _ s (env.viewStems s.name)) ?_
        exact gatherDbNames_next_le env _ rest
      · have h1 := allocObjectNames_pid_lt _ s (env.viewStems s.name) n hn
        exact lt_of_lt_of_le h1 (gatherDbNames_next_le env _ rest)
      · exact ih _ n hn

/-- An ObjectName whose id differs from every set element's id is not found
by CPython set membership: the identity-based hashes never match. -/
theorem objectNameSetContains_eq_false (s : List ObjectName) (x : ObjectName)
    (h : ∀ e ∈ s, e.pid ≠ x.pid) : objectNameSetContains s x = false := by
  simp only [objectNameSetContains, List.any_eq_false]
  intro e he
  simp [ObjectName.pyHash, h e he]

/-- The removal loop drops every metadata item when every db_names id is
below the allocator counter: each freshly built name gets a newer id, so
the membership test is always false. -/
theorem removeStaleLoop_removes_all (env : DbEnv) (dbNames : List ObjectName)
    (meta : List MetaTable) (a : Alloc)
    (h : ∀ e ∈ dbNames, e.pid < a.next) :
    (removeStaleLoop env dbNames meta a).1 = [] := by
  induction meta generalizing a with
  | nil => rfl
  | cons t rest ih =>
      simp only [removeStaleLoop, nameFromTable, allocSchemaName, allocObjectName]
      have hc : objectNameSetContains dbNames
          (mkObjectName ({ next := a.next + 1 } : Alloc).next t.name
            (mkSchemaName a.next t.schema (some env.defaultSchemaName))) = false := by
        apply objectNameSetContains_eq_false
        intro e he
        have := h e he
        simp only [mkObjectName]
        omega
      rw [hc]
      simp only [Bool.false_eq_true, if_false]
      exact ih { next := a.next + 1 + 1 }
        (fun e he => Nat.lt_succ_of_lt (Nat.lt_succ_of_lt (h e he)))

/-- dictSet makes the lookup of its key the new value. -/
theorem dlookup_dictSet_self {α : Type} (d : List (String × α)) (k : String)
    (v : α) : dlookup (dictSet d k v) k = some v := by
  induction d with
  | nil => simp [dictSet, dlookup]
  | cons e rest ih =>
      cases hbe : e.1 == k
      · simp [dictSet, hbe, dlookup, ih]
      · simp [dictSet, hbe, dlookup]

/-- dictSet leaves the lookup of other keys alone. -/
theorem dlookup_dictSet_ne {α : Type} (d : List (String × α)) (k k1 : String)
    (v : α) (h : (k == k1) = false) :
    dlookup (dictSet d k v) k1 = dlookup d k1 := by
  induction d with
  | nil => simp [dictSet, dlookup, h]
  | cons e rest ih =>
      cases hbe : e.1 == k
      · simp [dictSet, hbe, dlookup, ih]
      · have heq : e.1 = k := by simpa using hbe
        simp [dictSet, hbe, dlookup, h, heq]

/-- dictSet adds its key to the present keys and keeps the others. -/
theorem dcontains_dictSet {α : Type} (d : List (String × α)) (k k1 : String)
    (v : α) : dcontains (dictSet d k v) k1 = ((k == k1) || dcontains d k1) := by
  induction d with
  | nil => simp [dictSet, dcontains]
  | cons e rest ih =>
      cases hbe : e.1 == k
      · simp only [dictSet, hbe, Bool.false_eq_true, if_false, dcontains, ih]
        cases e.1 == k1 <;> cases k == k1 <;> simp
      · have heq : e.1 = k := by simpa using hbe
        simp [dictSet, hbe, dcontains, heq]

/-- Folding dictSet over entries with other keys leaves a lookup alone. -/
theorem dlookup_foldl_set_not_contained {α : Type} (u : List (String × α))
    (acc : List (String × α)) (k : String) (h : dcontains u k = false) :
    dlookup (u.foldl (fun d e => dictSet d e.1 e.2) acc) k = dlookup acc k := by
  induction u generalizing acc with
  | nil => rfl
  | cons e rest ih =>
      simp only [dcontains, Bool.or_eq_false_iff] at h
      rw [List.foldl_cons, ih (dictSet acc e.1 e.2) h.2,
        dlookup_dictSet_ne acc e.1 k e.2 h.1]

/-- dictSet preserves key uniqueness. -/
theorem uniqueKeys_dictSet {α : Type} (d : List (String × α)) (k : String)
    (v : α) (h : uniqueKeys d = true) : uniqueKeys (dictSet d k v) = true := by
  induction d with
  | nil => simp [dictSet, uniqueKeys, dcontains]
  | cons e rest ih =>
      simp only [uniqueKeys, Bool.and_eq_true, Bool.not_eq_true'] at h
      cases hbe : e.1 == k
      · have hke : (k == e.1) = false := by
          have hne : e.1 ≠ k := by simpa using hbe
          simpa using fun hh => hne hh.symm
        simp [dictSet, hbe, uniqueKeys, dcontains_dictSet, hke, h.1, ih h.2]
      · have heq : e.1 = k := by simpa using hbe
        simp [dictSet, hbe, uniqueKeys, ← heq, h.1, h.2]

/-- Folding dictSet over any pairs preserves key uniqueness. -/
theorem uniqueKeys_foldl_set {α : Type} (u : List (String × α))
    (acc : List (String × α)) (h : uniqueKeys acc = true) :
    uniqueKeys (u.foldl (fun d e => dictSet d e.1 e.2) acc) = true := by
  induction u generalizing acc with
  | nil => exact h
  | cons e rest ih => exact ih _ (uniqueKeys_dictSet _ _ _ h)

/-- Any dict built from pairs has unique keys. -/
theorem uniqueKeys_dictOfPairs {α : Type} (l : List (String × α)) :
    uniqueKeys (dictOfPairs l) = true :=
  uniqueKeys_foldl_set l [] rfl

/-- The merged updates dict of BaseModel.update has unique keys. -/
theorem uniqueKeys_updateDict {α : Type} (argdeltas : Option (List (AttrKey × α)))
    (kwargs : List (String × α)) : uniqueKeys (updateDict argdeltas kwargs) = true := by
  unfold updateDict
  exact uniqueKeys_foldl_set _ _ (uniqueKeys_dictOfPairs _)

/-- Applying a unique-keyed dict entrywise with dictSet realizes every one
of its bindings on the result. -/
theorem dlookup_foldl_set_of_lookup {α : Type} (u : List (String × α))
    (acc : List (String × α)) (k : String) (v : α)
    (hu : uniqueKeys u = true) (hl : dlookup u k = some v) :
    dlookup (u.foldl (fun d e => dictSet d e.1 e.2) acc) k = some v := by
  induction u generalizing acc with
  | nil => simp [dlookup] at hl
  | cons e rest ih =>
      simp only [uniqueKeys, Bool.and_eq_true, Bool.not_eq_true'] at hu
      by_cases he : (e.1 == k) = true
      · have heq : e.1 = k := by simpa using he
        simp only [dlookup, he, if_true] at hl
        have hrest : dcontains rest k = false := by rw [← heq]; exact hu.1
        rw [List.foldl_cons, dlookup_foldl_set_not_contained rest _ k hrest, ← heq,
          dlookup_dictSet_self, hl]
      · simp only [dlookup, he, if_false, Bool.false_eq_true] at hl
        rw [List.foldl_cons]
        exact ih _ hu.2 hl

/-- A filtered list is empty exactly when no element passes the test. -/
theorem filter_isEmpty_eq_not_any {α : Type} (l : List α) (p : α → Bool) :
    (l.filter p).isEmpty = !l.any p := by
  induction l with
  | nil => rfl
  | cons a t ih => cases hp : p a <;> simp [List.filter_cons, hp, ih]

/-! ## Claim theorems -/

/-- C10: the Transaction context manager rolls back pending session state on
entry, commits on normal exit and rolls back on exceptional exit, so the
work of the body is persisted exactly when the block completes normally,
and pre-existing pending state never is. -/
theorem transaction_commit_iff_normal_exit {σ ω : Type} (applyOp : σ → ω → σ)
    (s : Session σ ω) (bodyOps : List ω) :
    (runWithTransaction applyOp s bodyOps false).committed =
        bodyOps.foldl applyOp s.committed ∧
    (runWithTransaction applyOp s bodyOps false).pending = [] ∧
    (runWithTransaction applyOp s bodyOps true).committed = s.committed ∧
    (runWithTransaction applyOp s bodyOps true).pending = [] ∧
    (∀ b : Bool, runWithTransaction applyOp s bodyOps b =
        runWithTransaction applyOp { s with pending := [] } bodyOps b) := by
  refine ⟨?_, ?_, ?_, ?_, fun b => rfl⟩ <;>
    simp [runWithTransaction, transactionEnter, transactionExit,
      Session.rollback, Session.commit]

/-- C8: two distinct ObjectName instances (and SchemaName instances) with
the same qualified name compare equal under __eq__ while their hashes (ids)
differ, and a freshly built name is never found in a set of other
instances, even one holding an equal element. -/
theorem objectname_equality_without_hash_agreement
    (a b : ObjectName) (s : List ObjectName) (c d : SchemaName)
    (hab : a.pid ≠ b.pid) (hname : a.name = b.name)
    (hs : ∀ e ∈ s, e.pid ≠ a.pid)
    (hcd : c.pid ≠ d.pid) (hcn : c.name = d.name) :
    a.pyEq b = true ∧ a.pyHash ≠ b.pyHash ∧
    objectNameSetContains s a = false ∧
    c.pyEq d = true ∧ c.pyHash ≠ d.pyHash ∧
    schemaNameSetContains [d] c = false := by
  refine ⟨?_, hab, ?_, ?_, hcd, ?_⟩
  · simp [ObjectName.pyEq, hname]
  · simp only [objectNameSetContains, List.any_eq_false]
    intro e he
    have hne : e.pid ≠ a.pid := hs e he
    simp [ObjectName.pyHash, hne]
  · simp [SchemaName.pyEq, hcn]
  · have hne : d.pid ≠ c.pid := fun h => hcd h.symm
    simp [schemaNameSetContains, SchemaName.pyHash, hne]

/-- C8 witness: concrete instances with ids 0..5 and qualified name s.foo. -/
theorem objectname_equality_without_hash_agreement_witness :
    (mkObjectName 0 "foo" (mkSchemaName 4 (some "s") (some "s"))).pyEq
        (mkObjectName 1 "foo" (mkSchemaName 5 (some "s") (some "s"))) = true ∧
    (mkObjectName 0 "foo" (mkSchemaName 4 (some "s") (some "s"))).pyHash ≠
        (mkObjectName 1 "foo" (mkSchemaName 5 (some "s") (some "s"))).pyHash ∧
    objectNameSetContains [mkObjectName 1 "foo" (mkSchemaName 5 (some "s") (some "s"))]
        (mkObjectName 0 "foo" (mkSchemaName 4 (some "s") (some "s"))) = false ∧
    (mkSchemaName 2 (some "s") (some "s")).pyEq (mkSchemaName 3 (some "s") (some "s")) = true ∧
    (mkSchemaName 2 (some "s") (some "s")).pyHash ≠
        (mkSchemaName 3 (some "s") (some "s")).pyHash ∧
    schemaNameSetContains [mkSchemaName 3 (some "s") (some "s")]
        (mkSchemaName 2 (some "s") (some "s")) = false :=
  objectname_equality_without_hash_agreement
    (mkObjectName 0 "foo" (mkSchemaName 4 (some "s") (some "s")))
    (mkObjectName 1 "foo" (mkSchemaName 5 (some "s") (some "s")))
    [mkObjectName 1 "foo" (mkSchemaName 5 (some "s") (some "s"))]
    (mkSchemaName 2 (some "s") (some "s")) (mkSchemaName 3 (some "s") (some "s"))
    (by decide) (by decide) (by decide) (by decide) (by decide)

/-- C5: the integer branch of _sqlalchemy_dtype_from_series picks
SmallInteger for a series holding 32768, which a 16-bit signed integer
cannot represent, and Integer for a series holding 2^31, which a 32-bit
signed integer cannot represent: the inclusive upper bounds 2^15 and 2^31
are off by one. -/
theorem int_dtype_choice_overflows_smallint :
    sqlalchemyDtypeFromIntSeries [some 32768] = SqlDtype.smallInteger ∧
    fitsInt16 32768 = false ∧
    sqlalchemyDtypeFromIntSeries [some 2147483648] = SqlDtype.integer ∧
    fitsInt32 2147483648 = false := by
  decide

/-- C6: AutoModel declares the audit columns: integer primary key id,
nullable String(50) name, non-nullable created and modified datetimes with
server default NOW() (modified also updated to NOW() on update), a
non-nullable boolean active defaulting to true, and a generated table name
that is the snake_case form of the class name. -/
theorem automodel_audit_columns :
    Option.any (fun c => c.type == ColType.integer && c.primaryKey && !c.nullable)
        (findColumn "id") = true ∧
    Option.any (fun c => c.type == ColType.stringType 50 && c.nullable)
        (findColumn "name") = true ∧
    Option.any (fun c => c.type == ColType.dateTime && !c.nullable &&
        c.serverDefault == SqlDefault.nowFunction && c.onupdate == SqlDefault.noDefault)
        (findColumn "created") = true ∧
    Option.any (fun c => c.type == ColType.dateTime && !c.nullable &&
        c.serverDefault == SqlDefault.nowFunction && c.onupdate == SqlDefault.nowFunction)
        (findColumn "modified") = true ∧
    Option.any (fun c => c.type == ColType.boolean && !c.nullable &&
        c.serverDefault == SqlDefault.trueLiteral)
        (findColumn "active") = true ∧
    (∀ clsName : String, autoModelTablename clsName = snakeCase clsName) ∧
    autoModelTablename "AutoModel" = "auto_model" :=
  ⟨by decide, by decide, by decide, by decide, by decide, fun _ => rfl, by rfl⟩

/-- C7: for a nonempty object-dtype series the String capacity is
((L / 50) + 1) * 50 for L the longest rendered length (nulls as the empty
string): a positive multiple of 50 strictly above every value's length. -/
theorem str_capacity_exceeds_all_lengths (values : List (Option String))
    (h : values ≠ []) :
    ∃ l, strSeriesMaxLen values = some l ∧
      sqlalchemyDtypeFromStrSeries values = some (SqlDtype.string ((l / 50 + 1) * 50)) ∧
      ((l / 50 + 1) * 50) % 50 = 0 ∧ 0 < (l / 50 + 1) * 50 ∧
      ∀ v ∈ values, renderedLen v < (l / 50 + 1) * 50 := by
  match values, h with
  | v0 :: rest, _ =>
    refine ⟨((v0 :: rest).map renderedLen).foldr max 0, rfl, rfl, Nat.mul_mod_left _ _,
      Nat.mul_pos (Nat.succ_pos _) (by norm_num), ?_⟩
    intro v hv
    have h1 : renderedLen v ≤ ((v0 :: rest).map renderedLen).foldr max 0 :=
      le_foldr_max _ _ (List.mem_map_of_mem renderedLen hv)
    have h2 : ((v0 :: rest).map renderedLen).foldr max 0 % 50 < 50 :=
      Nat.mod_lt _ (by norm_num)
    omega

/-- C7 witness: the series of "ab" and a null has maximum length 2 and
capacity 50. -/
theorem str_capacity_exceeds_all_lengths_witness :
    ∃ l, strSeriesMaxLen [some "ab", none] = some l ∧
      sqlalchemyDtypeFromStrSeries [some "ab", none] =
        some (SqlDtype.string ((l / 50 + 1) * 50)) ∧
      ((l / 50 + 1) * 50) % 50 = 0 ∧ 0 < (l / 50 + 1) * 50 ∧
      ∀ v ∈ [some "ab", none], renderedLen v < (l / 50 + 1) * 50 :=
  str_capacity_exceeds_all_lengths [some "ab", none] (by decide)

/-- C3: with caching enabled, _get_metadata reads the cache under the
database name from the engine URL against the 5-day window the cache is
built with: a fresh entry is returned rebound and the cache kept; a missing
or stale entry yields a fresh empty Metadata, stored under the key; a
failing cache read yields a fresh empty Metadata with the cache untouched. -/
theorem metadata_cache_five_day_window (sql : SqlEnv)
    (entries : List (String × Nat × Metadata)) (now t : Nat) (v : Metadata)
    (hc : sql.cacheMetadata = true) :
    (((databaseCache entries).find sql.urlDatabase = some (t, v) ∧ now - t < 5) →
      getMetadata sql (databaseCache entries) now false =
        ((rebindMeta sql v, databaseCache entries), [Ev.cacheRead sql.urlDatabase])) ∧
    (((databaseCache entries).find sql.urlDatabase = none ∨
      ((databaseCache entries).find sql.urlDatabase = some (t, v) ∧ ¬ now - t < 5)) →
      getMetadata sql (databaseCache entries) now false =
        ((rebindMeta sql emptyMetadata,
          (databaseCache entries).store sql.urlDatabase now emptyMetadata),
         [Ev.cacheRead sql.urlDatabase])) ∧
    (getMetadata sql (databaseCache entries) now true =
      ((rebindMeta sql emptyMetadata, databaseCache entries),
       [Ev.cacheRead sql.urlDatabase])) := by
  refine ⟨?_, ?_, ?_⟩
  · rintro ⟨hf, hfresh⟩
    have h5 : (databaseCache entries).ttlDays = 5 := rfl
    simp [getMetadata, hc, Cache.setdefault, hf, h5, hfresh]
  · rintro (hf | ⟨hf, hstale⟩)
    · simp [getMetadata, hc, Cache.setdefault, hf]
    · have h5 : (databaseCache entries).ttlDays = 5 := rfl
      simp [getMetadata, hc, Cache.setdefault, hf, h5, hstale]
  · simp [getMetadata, hc]

/-- C3 witness: an empty cache with caching enabled falls in the
missing-entry case at day 0. -/
theorem metadata_cache_five_day_window_witness :
    ((({ ttlDays := 5, entries := [] } : Cache).find "db" = some (0, emptyMetadata) ∧
        0 - 0 < 5) →
      getMetadata { cacheMetadata := true, urlDatabase := "db", engineId := 7 }
          (databaseCache []) 0 false =
        ((rebindMeta { cacheMetadata := true, urlDatabase := "db", engineId := 7 }
            emptyMetadata, databaseCache []), [Ev.cacheRead "db"])) ∧
    ((({ ttlDays := 5, entries := [] } : Cache).find "db" = none ∨
      (({ ttlDays := 5, entries := [] } : Cache).find "db" = some (0, emptyMetadata) ∧
        ¬ 0 - 0 < 5)) →
      getMetadata { cacheMetadata := true, urlDatabase := "db", engineId := 7 }
          (databaseCache []) 0 false =
        ((rebindMeta { cacheMetadata := true, urlDatabase := "db", engineId := 7 }
            emptyMetadata, (databaseCache []).store "db" 0 emptyMetadata),
         [Ev.cacheRead "db"])) ∧
    (getMetadata { cacheMetadata := true, urlDatabase := "db", engineId := 7 }
        (databaseCache []) 0 true =
      ((rebindMeta { cacheMetadata := true, urlDatabase := "db", engineId := 7 }
          emptyMetadata, databaseCache []), [Ev.cacheRead "db"])) := by
  have h := metadata_cache_five_day_window
    { cacheMetadata := true, urlDatabase := "db", engineId := 7 } [] 0 0 emptyMetadata rfl
  exact h

/-- C1: _remove_stale_metadata_objects removes every metadata object, live
or stale: db_names holds freshly constructed ObjectName instances whose
identity-based hashes can never match the hash of the fresh name built for
a metadata item, so the membership test is always false. Concretely, the
table main.foo is removed although the live listing holds main.foo and the
two names compare equal under __eq__. -/
theorem remove_stale_removes_live_objects :
    (∀ (env : DbEnv) (meta : List MetaTable) (a : Alloc),
      ((removeStaleMetadataObjects env meta a).1).1 = []) ∧
    ((removeStaleMetadataObjects exampleEnv [{ name := "foo", schema := some "main" }]
        { next := 0 }).1.1 = []) ∧
    (ObjectName.pyEq (mkObjectName 0 "foo" (mkSchemaName 1 (some "main") (some "main")))
        (mkObjectName 2 "foo" (mkSchemaName 3 (some "main") (some "main"))) = true) := by
  refine ⟨?_, by decide, by decide⟩
  intro env meta a
  simp only [removeStaleMetadataObjects]
  rcases h1 : dbSchemaNames env a with ⟨schemas, a1⟩
  rcases h2 : gatherDbNames env a1 schemas with ⟨⟨dbNames, a2⟩, evs⟩
  have hb := gatherDbNames_pid_lt env a1 schemas
  rw [h2] at hb
  exact removeStaleLoop_removes_all env dbNames meta a2 hb

/-- C2: a non-underscore attribute miss on a Schema namespace does not
reflect and retry: Database defines no attribute named reflect, so the raw
AttributeError for the missing method propagates, with no reflection event
and with a message naming neither the schema nor the database. Underscore
attributes go straight to the namespace lookup. -/
theorem schema_getattr_reflect_is_missing :
    databaseHasAttr "reflect" = false ∧
    (∀ (s : SchemaNS) (attr : String), startsWithUnderscore attr = false →
      schemaGetattr s attr =
        (Except.error (PyExc.attributeError "'Database' object has no attribute 'reflect'"),
         [])) ∧
    (∀ (s : SchemaNS) (attr : String) (m : String), startsWithUnderscore attr = true →
      s.members.lookup attr = some m →
      schemaGetattr s attr = (Except.ok m, [])) ∧
    (∀ (s : SchemaNS) (attr : String), startsWithUnderscore attr = true →
      s.members.lookup attr = none →
      schemaGetattr s attr =
        (Except.error (PyExc.attributeError
          ("Schema '" ++ s.name ++ "' of Database '" ++ s.databaseName ++
           "' has no object '" ++ attr ++ "'.")), [])) ∧
    (schemaGetattr { name := "dbo", databaseName := "mydb", members := [] } "my_table" =
      (Except.error (PyExc.attributeError "'Database' object has no attribute 'reflect'"),
       [])) := by
  have hr : databaseHasAttr "reflect" = false := by decide
  have hmain : ∀ (s : SchemaNS) (attr : String), startsWithUnderscore attr = false →
      schemaGetattr s attr =
        (Except.error (PyExc.attributeError "'Database' object has no attribute 'reflect'"),
         []) := by
    intro s attr h
    simp [schemaGetattr, h, hr]
  refine ⟨hr, hmain, ?_, ?_, hmain _ "my_table" (by decide)⟩
  · intro s attr m h hm
    simp [schemaGetattr, h, hm]
  · intro s attr h hm
    simp [schemaGetattr, h, hm]

/-- Events of a metadata cache read are never reflection events. -/
theorem getMetadata_trace_no_reflection (sql : SqlEnv) (c : Cache) (now : Nat)
    (rf : Bool) :
    ((getMetadata sql c now rf).2).all (fun ev => !ev.isReflection) = true := by
  by_cases h1 : sql.cacheMetadata = false
  · simp [getMetadata, h1]
  · by_cases h2 : rf = true
    · simp [getMetadata, h1, h2, Ev.isReflection]
    · rcases hs : c.setdefault now sql.urlDatabase emptyMetadata with ⟨m, c1⟩
      simp [getMetadata, h1, h2, hs, Ev.isReflection]

/-- C4: constructing a Database performs no reflection, but not because the
construction stops at accessor preparation: Database resolves neither
schemas nor reflect, so Schemas construction inside __init__ raises
AttributeError, Schema.__call__ raises instead of reflecting, and only
Database.__call__ actually reaches _reflect_object. -/
theorem database_init_never_reflects :
    databaseHasAttr "schemas" = false ∧
    (∀ (sql : SqlEnv) (entries : List (String × Nat × Metadata)) (now : Nat) (rf : Bool),
      (databaseInit sql entries now rf).1 =
        Except.error (PyExc.attributeError "'Database' object has no attribute 'schemas'")) ∧
    (∀ (sql : SqlEnv) (entries : List (String × Nat × Metadata)) (now : Nat) (rf : Bool),
      ((databaseInit sql entries now rf).2).all (fun ev => !ev.isReflection) = true) ∧
    (∀ s : SchemaNS, schemaNSCall s =
      (Except.error (PyExc.attributeError "'Database' object has no attribute 'reflect'"),
       [])) ∧
    (((databaseCall exampleEnv [] { next := 0 }).2).any Ev.isReflection = true) := by
  have hsr : schemasRefresh =
      (Except.error (PyExc.attributeError "'Database' object has no attribute 'schemas'"),
       []) := rfl
  refine ⟨by decide, ?_, ?_, fun s => rfl, by decide⟩
  · intro sql entries now rf
    unfold databaseInit
    rcases hg : getMetadata sql (databaseCache entries) now rf with ⟨⟨m, c1⟩, ev1⟩
    rw [hsr]
  · intro sql entries now rf
    have ht := getMetadata_trace_no_reflection sql (databaseCache entries) now rf
    unfold databaseInit
    rcases hg : getMetadata sql (databaseCache entries) now rf with ⟨⟨m, c1⟩, ev1⟩
    rw [hg] at ht
    rw [hsr]
    simpa using ht

/-- Characterization of modelUpdate with the emptiness tests of the two
error checks rephrased as existence tests. -/
theorem modelUpdate_eq {α : Type} (self : OrmInstance α)
    (argdeltas : Option (List (AttrKey × α))) (kwargs : List (String × α)) :
    modelUpdate self argdeltas kwargs =
      (if ((dkeys (updateDict argdeltas kwargs)).any
            fun k => !(self.descriptors.contains k)) then
        (self, some (UpdateError.unknownAttributes
          ((dkeys (updateDict argdeltas kwargs)).filter
            fun k => !(self.descriptors.contains k))))
      else if (!(cleanDict argdeltas).isEmpty && !(kwDict kwargs).isEmpty &&
          ((dkeys (cleanDict argdeltas)).any
            fun k => dcontains (kwDict kwargs) k)) then
        (self, some (UpdateError.duplicateAttributes
          ((dkeys (cleanDict argdeltas)).filter
            fun k => dcontains (kwDict kwargs) k)))
      else
        ({ self with attrs := ((updateDict argdeltas kwargs).foldl (fun acc e => dictSet acc e.1 e.2) self.attrs) }, none)) := by
  unfold modelUpdate
  simp only [filter_isEmpty_eq_not_any, Bool.not_not]

/-- C9: BaseModel.update is all-or-nothing: it raises exactly when a
supplied key is not an ORM descriptor key or the positional and keyword
inputs share a key; on a raise the object is unchanged, and on success
every binding of the merged updates dict is realized on the object. -/
theorem model_update_all_or_nothing {α : Type} (self : OrmInstance α)
    (argdeltas : Option (List (AttrKey × α))) (kwargs : List (String × α)) :
    ((modelUpdate self argdeltas kwargs).2.isSome = true →
        (modelUpdate self argdeltas kwargs).1 = self) ∧
    ((modelUpdate self argdeltas kwargs).2.isSome =
      (((dkeys (updateDict argdeltas kwargs)).any
          fun k => !(self.descriptors.contains k)) ||
        (!(cleanDict argdeltas).isEmpty && !(kwDict kwargs).isEmpty &&
          ((dkeys (cleanDict argdeltas)).any
            fun k => dcontains (kwDict kwargs) k)))) ∧
    ((modelUpdate self argdeltas kwargs).2 = none →
      ((modelUpdate self argdeltas kwargs).1.descriptors = self.descriptors ∧
       ∀ k v, dlookup (updateDict argdeltas kwargs) k = some v →
         dlookup ((modelUpdate self argdeltas kwargs).1).attrs k = some v)) := by
  rw [modelUpdate_eq]
  by_cases h1 : ((dkeys (updateDict argdeltas kwargs)).any
      fun k => !(self.descriptors.contains k)) = true
  · rw [if_pos h1]
    refine ⟨fun _ => rfl, ?_, fun h => by simp at h⟩
    simp only [Option.isSome_some, h1, Bool.true_or]
  · rw [if_neg h1]
    by_cases h2 : (!(cleanDict argdeltas).isEmpty && !(kwDict kwargs).isEmpty &&
        ((dkeys (cleanDict argdeltas)).any
          fun k => dcontains (kwDict kwargs) k)) = true
    · rw [if_pos h2]
      refine ⟨fun _ => rfl, ?_, fun h => by simp at h⟩
      simp only [Option.isSome_some, h2, Bool.or_true]
    · rw [if_neg h2]
      rw [Bool.not_eq_true] at h1 h2
      refine ⟨fun h => by simp at h, ?_, fun _ => ⟨rfl, ?_⟩⟩
      · simp only [Option.isSome_none, h1, h2, Bool.or_false]
      · intro k v hkv
        exact dlookup_foldl_set_of_lookup _ _ k v
          (uniqueKeys_updateDict argdeltas kwargs) hkv

end SqlHandler
